import Mathlib

/-!
Verification development for the madr catalog service.

Shallow embedding of the identity and normalization core:
 - src/madr/utils/sanitize_data.py   (sanitize_text_in, sanitize_text_out)
 - src/madr/security/generate_token.py and account_check.py
 - src/madr/routers/{authors,books,accounts}_router.py
 - pydantic field validators from src/madr/schemas/*.py

Text is modelled as List Char. Python case conversion (str.lower, str.title)
is modelled per character over the ASCII and Latin-1 letters, which covers
the repository inputs; characters outside the table are fixed points, as in
Python for uncased characters. Python truthiness of an optional string field
(`if x:`) is modelled as: present and nonempty.
-/

/-- Uppercase and lowercase pairs for ASCII letters and Latin-1 letters,
mirroring the one-to-one part of the Python case mappings used by
str.lower and str.title in sanitize_data.py. -/
def caseTable : List (Char × Char) :=
  [('A', 'a'), ('B', 'b'), ('C', 'c'), ('D', 'd'), ('E', 'e'), ('F', 'f'),
   ('G', 'g'), ('H', 'h'), ('I', 'i'), ('J', 'j'), ('K', 'k'), ('L', 'l'),
   ('M', 'm'), ('N', 'n'), ('O', 'o'), ('P', 'p'), ('Q', 'q'), ('R', 'r'),
   ('S', 's'), ('T', 't'), ('U', 'u'), ('V', 'v'), ('W', 'w'), ('X', 'x'),
   ('Y', 'y'), ('Z', 'z'),
   ('À', 'à'), ('Á', 'á'), ('Â', 'â'), ('Ã', 'ã'), ('Ä', 'ä'), ('Å', 'å'),
   ('Æ', 'æ'), ('Ç', 'ç'), ('È', 'è'), ('É', 'é'), ('Ê', 'ê'), ('Ë', 'ë'),
   ('Ì', 'ì'), ('Í', 'í'), ('Î', 'î'), ('Ï', 'ï'), ('Ð', 'ð'), ('Ñ', 'ñ'),
   ('Ò', 'ò'), ('Ó', 'ó'), ('Ô', 'ô'), ('Õ', 'õ'), ('Ö', 'ö'), ('Ø', 'ø'),
   ('Ù', 'ù'), ('Ú', 'ú'), ('Û', 'û'), ('Ü', 'ü'), ('Ý', 'ý'), ('Þ', 'þ'),
   ('Ÿ', 'ÿ')]

/-- Python str.lower, per character. -/
def pyLower (c : Char) : Char :=
  match caseTable.find? (fun p => p.1 == c) with
  | some p => p.2
  | none => c

/-- Python per-character uppercase map (used by str.title at a word start). -/
def pyUpper (c : Char) : Char :=
  match caseTable.find? (fun p => p.2 == c) with
  | some p => p.1
  | none => c

/-- Python cased-character test over the modelled range, used by str.title
to decide word boundaries. -/
def pyIsCased (c : Char) : Bool :=
  caseTable.any (fun p => p.1 == c || p.2 == c) || c == 'ß'

/-- Whitespace as matched by the regex class backslash-s and by str.strip:
space, tab, newline, carriage return, vertical tab, form feed. -/
def pyIsSpace (c : Char) : Bool :=
  c == ' ' || c == '\t' || c == '\n' || c == '\r' || c == '\x0b' || c == '\x0c'

/-- Replacement of every maximal whitespace run by one space, the effect of
re.sub with pattern backslash-s-plus and a single space. The flag records
whether the previous character was whitespace. -/
def collapseAux : Bool → List Char → List Char
  | _, [] => []
  | prevWS, c :: cs =>
    if pyIsSpace c then
      if prevWS then collapseAux true cs
      else ' ' :: collapseAux true cs
    else c :: collapseAux false cs

/-- Full whitespace collapse, starting outside any whitespace run. -/
def collapseWS (l : List Char) : List Char := collapseAux false l

/-- Python str.strip: drop leading and trailing whitespace. -/
def pyStrip (l : List Char) : List Char :=
  ((l.dropWhile pyIsSpace).reverse.dropWhile pyIsSpace).reverse

/-- Python str.title with one-to-one case maps: the first cased character of
each word is uppercased, later cased characters are lowercased; the flag
records whether the previous character was cased. -/
def pyTitleAux : Bool → List Char → List Char
  | _, [] => []
  | prevCased, c :: cs =>
    (if prevCased then pyLower c else pyUpper c) :: pyTitleAux (pyIsCased c) cs

/-- The character filter of re.sub removing the literal characters of the
class question mark and exclamation mark. -/
def keepQB (c : Char) : Bool := !(c == '?' || c == '!')

/-- sanitize_text_in from src/madr/utils/sanitize_data.py: lowercase, strip,
remove question and exclamation marks, collapse whitespace runs, in that
order. This is the normalize-for-storage form of the spec. -/
def sanitize_text_in (text : List Char) : List Char :=
  collapseWS ((pyStrip (text.map pyLower)).filter keepQB)

/-- sanitize_text_out from src/madr/utils/sanitize_data.py: strip, collapse
whitespace runs, title case, in that order. This is the
normalize-for-display form of the spec. -/
def sanitize_text_out (text : List Char) : List Char :=
  pyTitleAux false (collapseWS (pyStrip text))

example : sanitize_text_in (("Androides Sonham Com Ovelhas Elétricas?").toList)
    = ("androides sonham com ovelhas elétricas").toList := by decide

example : sanitize_text_out (("machado de assis").toList)
    = ("Machado De Assis").toList := by decide

example : sanitize_text_in (("  breve  história  do tempo ").toList)
    = ("breve história do tempo").toList := by decide

/-!
Data model and error taxonomy. Entities mirror the SQLAlchemy models in
src/madr/models; the catalog state is the three tables. HTTP failures are
the HTTPException values raised by the routers; integrityViolation is an
uncaught sqlalchemy IntegrityError escaping to the caller as a raw storage
error.
-/

structure Author where
  id : Nat
  name : List Char
  deriving DecidableEq, Repr

structure Book where
  id : Nat
  title : List Char
  year : Int
  author_id : Nat
  deriving DecidableEq, Repr

structure Account where
  id : Nat
  username : List Char
  email : List Char
  password : List Char
  deriving DecidableEq, Repr

structure Catalog where
  authors : List Author
  books : List Book
  accounts : List Account
  deriving DecidableEq, Repr

inductive AppError where
  | http : Nat → String → AppError
  | integrityViolation : AppError
  deriving DecidableEq, Repr

inductive ApiResult (α : Type) where
  | ok : α → ApiResult α
  | err : AppError → ApiResult α
  deriving DecidableEq, Repr

def msgCredentials : String := "Could not validate credentials"

def msgAuthorExists : String := "Author already exists"

def msgAuthorNotFound : String := "Author not found"

def msgBookExists : String := "Book already exists"

def msgBookNotFound : String := "Book not found"

def msgUsernameExists : String := "Username already exists"

def msgEmailExists : String := "Email already exists"

def msgUsernameOrEmailExists : String := "Username or email already exists"

def msgNotEnoughPermissions : String := "Not enough permissions"

def msgAccountDeleted : String := "Account deleted successfully"

/-- The single 401 HTTPException built by get_current_account in
src/madr/security/account_check.py. -/
def credentialsException : AppError := AppError.http 401 msgCredentials

/-- Modelled from the spec: PasswordHasher (the external pwdlib collaborator
of section 4.1) is a one-way hash; modelled as an opaque-looking injective
tagging, adequate here because no claim inspects hash contents. -/
def hashPassword (plaintext : List Char) : List Char := '#' :: plaintext

/-!
Token layer. create_access_token is src/madr/security/generate_token.py;
jwt_decode models the external PyJWT decode used by account_check.py per
its documented semantics (spec section 4.3): signature and structure are
checked first (DecodeError), then the embedded expiry (ExpiredSignatureError
when the exp claim is not in the future). Times are seconds.
-/

structure TokenClaims where
  sub : Option (List Char)
  exp : Nat
  deriving DecidableEq, Repr

inductive JwtToken where
  | signed : TokenClaims → List Char → JwtToken
  | malformed : JwtToken
  deriving DecidableEq, Repr

inductive JwtOutcome where
  | ok : TokenClaims → JwtOutcome
  | decodeFailure : JwtOutcome
  | expiredSignature : JwtOutcome
  deriving DecidableEq, Repr

def jwt_decode (tok : JwtToken) (key : List Char) (now : Nat) : JwtOutcome :=
  match tok with
  | .malformed => .decodeFailure
  | .signed claims k =>
    if k != key then .decodeFailure
    else if claims.exp ≤ now then .expiredSignature
    else .ok claims

/-- create_access_token: copies the data (here, the subject claim) and adds
an exp claim equal to now plus ACCESS_TOKEN_EXPIRE_MINUTES minutes. -/
def create_access_token (key : List Char) (ttlMinutes : Nat) (now : Nat)
    (sub : Option (List Char)) : JwtToken :=
  .signed { sub := sub, exp := now + ttlMinutes * 60 } key

/-- get_current_account from src/madr/security/account_check.py: decode the
token, require a present nonempty sub claim, look the account up by email;
every failure raises the one credentials_exception. -/
def get_current_account (db : Catalog) (key : List Char) (now : Nat)
    (tok : JwtToken) : ApiResult Account :=
  match jwt_decode tok key now with
  | .decodeFailure => .err credentialsException
  | .expiredSignature => .err credentialsException
  | .ok payload =>
    match payload.sub with
    | none => .err credentialsException
    | some subject_email =>
      if subject_email.isEmpty then .err credentialsException
      else
        match db.accounts.find? (fun a => a.email == subject_email) with
        | none => .err credentialsException
        | some account => .ok account

/-!
Author routes, src/madr/routers/authors_router.py. The AuthorSchema
validator applies sanitize_text_in to the candidate name on create; the
AuthorUpdate validator applies sanitize_text_out on update. The commitOk
flag on create is the outcome of session.commit: false means the storage
uniqueness constraint rejected the write with an IntegrityError, which
create_author does not catch.
-/

def create_author (commitOk : Bool) (nextId : Nat) (db : Catalog)
    (rawName : List Char) : ApiResult (Catalog × Author) :=
  let name := sanitize_text_in rawName
  match db.authors.find? (fun a => a.name == name) with
  | some _ => .err (.http 400 msgAuthorExists)
  | none =>
    if commitOk then
      let newAuthor : Author := { id := nextId, name := name }
      .ok ({ db with authors := db.authors ++ [newAuthor] }, newAuthor)
    else .err .integrityViolation

def update_author (db : Catalog) (author_id : Nat)
    (rawName : Option (List Char)) : ApiResult (Catalog × Author) :=
  let nameOpt := rawName.map sanitize_text_out
  match db.authors.find? (fun a => a.id == author_id) with
  | none => .err (.http 404 msgAuthorNotFound)
  | some author =>
    match nameOpt with
    | none => .ok (db, author)
    | some n =>
      if n.isEmpty then .ok (db, author)
      else
        match db.authors.find? (fun a => a.name == n) with
        | some existing =>
          if existing.id != author_id then .err (.http 400 msgAuthorExists)
          else
            let updated : Author := { author with name := n }
            .ok ({ db with authors :=
                     db.authors.map (fun a => if a.id == author_id then updated else a) },
                 updated)
        | none =>
          let updated : Author := { author with name := n }
          .ok ({ db with authors :=
                   db.authors.map (fun a => if a.id == author_id then updated else a) },
               updated)

/-!
Book routes, src/madr/routers/books_router.py. BookSchema and BookUpdate
both apply sanitize_text_in to the title. The duplicate title check
compares lowercased forms (func.lower on both sides).
-/

def create_book (nextId : Nat) (db : Catalog) (rawTitle : List Char)
    (year : Int) (author_id : Nat) : ApiResult (Catalog × Book) :=
  let title := sanitize_text_in rawTitle
  match db.authors.find? (fun a => a.id == author_id) with
  | none => .err (.http 404 msgAuthorNotFound)
  | some _ =>
    match db.books.find? (fun b => b.title.map pyLower == title.map pyLower) with
    | some _ => .err (.http 400 msgBookExists)
    | none =>
      let newBook : Book :=
        { id := nextId, title := title, year := year, author_id := author_id }
      .ok ({ db with books := db.books ++ [newBook] }, newBook)

structure BookUpdatePayload where
  title : Option (List Char)
  year : Option Int
  author_id : Option Nat
  deriving DecidableEq, Repr

def update_book (db : Catalog) (book_id : Nat) (payload : BookUpdatePayload) :
    ApiResult (Catalog × Book) :=
  match db.books.find? (fun b => b.id == book_id) with
  | none => .err (.http 404 msgBookNotFound)
  | some book =>
    let titleStep : ApiResult (List Char) :=
      match payload.title.map sanitize_text_in with
      | none => .ok book.title
      | some t =>
        if t.isEmpty then .ok book.title
        else
          match db.books.find? (fun b => b.title.map pyLower == t.map pyLower) with
          | some existing =>
            if existing.id != book_id then .err (.http 400 msgBookExists)
            else .ok t
          | none => .ok t
    match titleStep with
    | .err e => .err e
    | .ok newTitle =>
      let newYear : Int :=
        match payload.year with
        | some y => if y != 0 then y else book.year
        | none => book.year
      let updated : Book := { book with title := newTitle, year := newYear }
      .ok ({ db with books :=
               db.books.map (fun b => if b.id == book_id then updated else b) },
           updated)

/-!
Account routes, src/madr/routers/accounts_router.py. AccountSchema applies
sanitize_text_in to the username only. create_account does not catch
IntegrityError; update_account catches it and converts it to a 409
HTTPException; delete_account performs the self-only permission check first
and returns the resulting catalog together with the outcome.
-/

structure AccountPayload where
  username : List Char
  email : List Char
  password : List Char
  deriving DecidableEq, Repr

def create_account (commitOk : Bool) (nextId : Nat) (db : Catalog)
    (payload : AccountPayload) : ApiResult (Catalog × Account) :=
  let username := sanitize_text_in payload.username
  let insertStep : ApiResult (Catalog × Account) :=
    if commitOk then
      let newAccount : Account :=
        { id := nextId, username := username, email := payload.email,
          password := hashPassword payload.password }
      .ok ({ db with accounts := db.accounts ++ [newAccount] }, newAccount)
    else .err .integrityViolation
  match db.accounts.find? (fun a => a.username == username || a.email == payload.email) with
  | some existing =>
    if existing.username == username then .err (.http 400 msgUsernameExists)
    else if existing.email == payload.email then .err (.http 400 msgEmailExists)
    else insertStep
  | none => insertStep

def update_account (commitOk : Bool) (db : Catalog) (account_id : Nat)
    (current : Account) (payload : AccountPayload) : ApiResult (Catalog × Account) :=
  if current.id != account_id then .err (.http 403 msgNotEnoughPermissions)
  else if commitOk then
    let updated : Account :=
      { id := current.id, username := sanitize_text_in payload.username,
        email := payload.email, password := hashPassword payload.password }
    .ok ({ db with accounts :=
             db.accounts.map (fun a => if a.id == current.id then updated else a) },
         updated)
  else .err (.http 409 msgUsernameOrEmailExists)

def delete_account (db : Catalog) (account_id : Nat) (current : Account) :
    Catalog × ApiResult String :=
  if current.id != account_id then (db, .err (.http 403 msgNotEnoughPermissions))
  else ({ db with accounts := db.accounts.filter (fun a => a.id != current.id) },
        .ok msgAccountDeleted)

/-!
Concrete fixtures used by the claim theorems and witnesses.
-/

def emptyCatalog : Catalog := { authors := [], books := [], accounts := [] }

def machadoRaw : List Char := ("Machado de Assis").toList

def machadoStored : List Char := ("machado de assis").toList

def machadoShoutRaw : List Char := ("MACHADO DE ASSIS?").toList

def machadoBangRaw : List Char := ("Machado de Assis!").toList

def machadoBangTitled : List Char := ("Machado De Assis!").toList

def fooRaw : List Char := ("foo").toList

def machadoAuthor : Author := { id := 1, name := machadoStored }

def fooAuthor : Author := { id := 2, name := fooRaw }

def catalogMachado : Catalog := { authors := [machadoAuthor], books := [], accounts := [] }

def catalogMachadoFoo : Catalog :=
  { authors := [machadoAuthor, fooAuthor], books := [], accounts := [] }

def clashAuthor : Author := { id := 2, name := machadoBangTitled }

def catalogClashed : Catalog :=
  { authors := [machadoAuthor, clashAuthor], books := [], accounts := [] }

/-- C7: creating an author named Machado de Assis and then another named
MACHADO DE ASSIS with shouting case and a question mark fails with the
duplicate error, because both names sanitize to the same storage form and
create_author compares sanitized forms. -/
theorem claim_C7 :
    create_author true 1 emptyCatalog machadoRaw = .ok (catalogMachado, machadoAuthor)
    ∧ create_author true 2 catalogMachado machadoShoutRaw
        = .err (.http 400 msgAuthorExists) := by
  decide

/-- C1: the normalized-uniqueness invariant is violated by author update.
Reachable run: create Machado de Assis (stored lowercased), create foo, then
update author 2 to Machado de Assis with a bang. AuthorUpdate sanitizes with
sanitize_text_out (title case, punctuation kept), so the conflict lookup
misses the stored lowercased name and the update persists a second author
whose sanitize_text_in form equals the first one. -/
theorem claim_C1 :
    create_author true 1 emptyCatalog machadoRaw = .ok (catalogMachado, machadoAuthor)
    ∧ create_author true 2 catalogMachado fooRaw = .ok (catalogMachadoFoo, fooAuthor)
    ∧ update_author catalogMachadoFoo 2 (some machadoBangRaw)
        = .ok (catalogClashed, clashAuthor)
    ∧ machadoAuthor ∈ catalogClashed.authors
    ∧ clashAuthor ∈ catalogClashed.authors
    ∧ machadoAuthor.id ≠ clashAuthor.id
    ∧ sanitize_text_in machadoAuthor.name = sanitize_text_in clashAuthor.name := by
  decide

def qSpaceA : List Char := ("? a").toList

/-- C2 counterexample: sanitize_text_in is not idempotent. On the text of a
question mark, a space and the letter a, the strip runs before the
punctuation removal, so the first pass leaves a leading space and the second
pass removes it. -/
theorem claim_C2_counterexample :
    sanitize_text_in (sanitize_text_in qSpaceA) ≠ sanitize_text_in qSpaceA := by
  decide

/-- C4 counterexample: when the storage uniqueness constraint rejects the
write of a new author, create_author has no IntegrityError handler, so the
caller sees the raw storage error, not the duplicate-entity error of the
pre-check path. -/
theorem claim_C4_counterexample :
    create_author false 1 emptyCatalog fooRaw = .err .integrityViolation
    ∧ AppError.integrityViolation ≠ AppError.http 400 msgAuthorExists := by
  decide

/-- C4 amended: only account update converts a storage uniqueness violation
at the write into a user-visible duplicate error, and it uses status 409
with its own message, unlike the 400 of the pre-check duplicate path;
account creation and author creation pass the raw storage error through. -/
theorem claim_C4 :
    (∀ (db : Catalog) (account_id : Nat) (current : Account) (payload : AccountPayload),
      current.id = account_id →
      update_account false db account_id current payload
        = .err (.http 409 msgUsernameOrEmailExists))
    ∧ (∀ (nextId : Nat) (db : Catalog) (payload : AccountPayload),
      db.accounts.find?
          (fun a => a.username == sanitize_text_in payload.username || a.email == payload.email)
        = none →
      create_account false nextId db payload = .err .integrityViolation)
    ∧ (∀ (nextId : Nat) (db : Catalog) (rawName : List Char),
      db.authors.find? (fun a => a.name == sanitize_text_in rawName) = none →
      create_author false nextId db rawName = .err .integrityViolation)
    ∧ AppError.http 409 msgUsernameOrEmailExists ≠ AppError.http 400 msgUsernameExists := by
  refine ⟨?_, ?_, ?_, by decide⟩
  · intro db account_id current payload h
    unfold update_account
    simp [h]
  · intro nextId db payload h
    unfold create_account
    simp [h]
  · intro nextId db rawName h
    unfold create_author
    simp [h]

def accountW : Account :=
  { id := 1, username := fooRaw, email := fooRaw, password := fooRaw }

def accountPayloadW : AccountPayload :=
  { username := fooRaw, email := fooRaw, password := fooRaw }

theorem claim_C4_witness :
    update_account false emptyCatalog 1 accountW accountPayloadW
      = .err (.http 409 msgUsernameOrEmailExists)
    ∧ create_account false 5 emptyCatalog accountPayloadW = .err .integrityViolation
    ∧ create_author false 5 emptyCatalog fooRaw = .err .integrityViolation :=
  ⟨claim_C4.1 emptyCatalog 1 accountW accountPayloadW rfl,
   claim_C4.2.1 5 emptyCatalog accountPayloadW rfl,
   claim_C4.2.2.1 5 emptyCatalog fooRaw rfl⟩

/-- C6: creating a book whose author_id matches no author fails with the
author not-found error, whatever the candidate title, because the author
existence check runs before the duplicate-title check. -/
theorem claim_C6 :
    ∀ (nextId : Nat) (db : Catalog) (rawTitle : List Char) (year : Int) (author_id : Nat),
    db.authors.find? (fun a => a.id == author_id) = none →
    create_book nextId db rawTitle year author_id = .err (.http 404 msgAuthorNotFound) := by
  intro nextId db rawTitle year author_id h
  unfold create_book
  simp [h]

def bookFoo : Book := { id := 1, title := fooRaw, year := 1968, author_id := 9 }

def catalogOrphanBook : Catalog := { authors := [], books := [bookFoo], accounts := [] }

theorem claim_C6_witness :
    create_book 2 catalogOrphanBook fooRaw 1968 1 = .err (.http 404 msgAuthorNotFound) :=
  claim_C6 2 catalogOrphanBook fooRaw 1968 1 rfl

/-- C3: identity resolution has a single externally visible failure value.
Part one: any result of get_current_account is either some account or the
credentials exception. The remaining parts show the three failure cases
each produce exactly that error: malformed or badly signed token, missing
subject claim, and subject matching no stored account. -/
theorem claim_C3 :
    (∀ (db : Catalog) (key : List Char) (now : Nat) (tok : JwtToken),
      (∃ a, get_current_account db key now tok = .ok a)
      ∨ get_current_account db key now tok = .err credentialsException)
    ∧ (∀ (db : Catalog) (key : List Char) (now : Nat),
      get_current_account db key now .malformed = .err credentialsException)
    ∧ (∀ (db : Catalog) (key : List Char) (now exp1 : Nat),
      now < exp1 →
      get_current_account db key now (.signed { sub := none, exp := exp1 } key)
        = .err credentialsException)
    ∧ (∀ (db : Catalog) (key : List Char) (now exp1 : Nat) (s : List Char),
      now < exp1 → s.isEmpty = false →
      db.accounts.find? (fun a => a.email == s) = none →
      get_current_account db key now (.signed { sub := some s, exp := exp1 } key)
        = .err credentialsException) := by
  refine ⟨?_, ?_, ?_, ?_⟩
  · intro db key now tok
    unfold get_current_account
    split
    · right; rfl
    · right; rfl
    · split
      · right; rfl
      · split
        · right; rfl
        · split
          · right; rfl
          · left; exact ⟨_, rfl⟩
  · intro db key now
    rfl
  · intro db key now exp1 h
    unfold get_current_account jwt_decode
    simp only [bne_self_eq_false, Bool.false_eq_true, if_false]
    rw [if_neg (by omega)]
  · intro db key now exp1 s h hs hfind
    unfold get_current_account jwt_decode
    simp only [bne_self_eq_false, Bool.false_eq_true, if_false]
    rw [if_neg (by omega)]
    simp [hs, hfind]

theorem claim_C3_witness :
    ((∃ a, get_current_account emptyCatalog fooRaw 0 .malformed = .ok a)
      ∨ get_current_account emptyCatalog fooRaw 0 .malformed = .err credentialsException)
    ∧ get_current_account emptyCatalog fooRaw 0 .malformed = .err credentialsException
    ∧ get_current_account emptyCatalog fooRaw 0 (.signed { sub := none, exp := 5 } fooRaw)
        = .err credentialsException
    ∧ get_current_account emptyCatalog fooRaw 0 (.signed { sub := some fooRaw, exp := 5 } fooRaw)
        = .err credentialsException :=
  ⟨claim_C3.1 emptyCatalog fooRaw 0 .malformed,
   claim_C3.2.1 emptyCatalog fooRaw 0,
   claim_C3.2.2.1 emptyCatalog fooRaw 0 5 (by omega),
   claim_C3.2.2.2 emptyCatalog fooRaw 0 5 fooRaw (by omega) (by decide) rfl⟩

/-- C5: a token issued with a ttl of sixty minutes carries expiry now plus
sixty minutes; decoding succeeds fifty nine minutes later and reports
expiry sixty one minutes later, at which point identity resolution fails
with the single authentication error. -/
theorem claim_C5 :
    ∀ (key : List Char) (now : Nat) (sub : List Char) (db : Catalog),
    jwt_decode (create_access_token key 60 now (some sub)) key (now + 59 * 60)
      = .ok { sub := some sub, exp := now + 60 * 60 }
    ∧ jwt_decode (create_access_token key 60 now (some sub)) key (now + 61 * 60)
      = .expiredSignature
    ∧ get_current_account db key (now + 61 * 60) (create_access_token key 60 now (some sub))
      = .err credentialsException := by
  intro key now sub db
  have hdec : jwt_decode (create_access_token key 60 now (some sub)) key (now + 61 * 60)
      = .expiredSignature := by
    unfold create_access_token jwt_decode
    simp only [bne_self_eq_false, Bool.false_eq_true, if_false]
    rw [if_pos (by omega)]
  refine ⟨?_, hdec, ?_⟩
  · unfold create_access_token jwt_decode
    simp only [bne_self_eq_false, Bool.false_eq_true, if_false]
    rw [if_neg (by omega)]
  · unfold get_current_account
    simp only [hdec]

/-- C8: deleting an account is permitted only for the account itself. A
mismatching target id fails with the permission error and leaves the
catalog unchanged; a matching id removes the account and returns the
confirmation message. -/
theorem claim_C8 :
    ∀ (db : Catalog) (account_id : Nat) (current : Account),
    (current.id ≠ account_id →
      delete_account db account_id current
        = (db, .err (.http 403 msgNotEnoughPermissions)))
    ∧ (current.id = account_id →
      delete_account db account_id current
        = ({ db with accounts := db.accounts.filter (fun a => a.id != current.id) },
           .ok msgAccountDeleted)) := by
  intro db account_id current
  constructor
  · intro h
    unfold delete_account
    simp [h]
  · intro h
    unfold delete_account
    simp [h]

def accountOther : Account :=
  { id := 2, username := machadoStored, email := machadoStored, password := fooRaw }

def catalogTwoAccounts : Catalog :=
  { authors := [], books := [], accounts := [accountW, accountOther] }

theorem claim_C8_witness :
    delete_account catalogTwoAccounts 2 accountW
      = (catalogTwoAccounts, .err (.http 403 msgNotEnoughPermissions))
    ∧ delete_account catalogTwoAccounts 1 accountW
      = ({ catalogTwoAccounts with
             accounts := catalogTwoAccounts.accounts.filter (fun a => a.id != accountW.id) },
         .ok msgAccountDeleted) :=
  ⟨(claim_C8 catalogTwoAccounts 2 accountW).1 (by decide),
   (claim_C8 catalogTwoAccounts 1 accountW).2 rfl⟩

/-- C9: a successful book update never writes the supplied author_id. The
updated record keeps the author reference of the stored book, and across
the whole table the author references of the target id stay at the stored
value while all other books are untouched. -/
theorem claim_C9 :
    ∀ (db : Catalog) (book_id : Nat) (payload : BookUpdatePayload)
      (db2 : Catalog) (updated b0 : Book),
    db.books.find? (fun b => b.id == book_id) = some b0 →
    update_book db book_id payload = .ok (db2, updated) →
    updated.author_id = b0.author_id
    ∧ db2.books.map (fun b => b.author_id)
        = db.books.map (fun b => if b.id == book_id then b0.author_id else b.author_id) := by
  intro db book_id payload db2 updated b0 hfind h
  simp only [update_book, hfind] at h
  split at h
  · exact absurd h (by simp)
  · rw [ApiResult.ok.injEq, Prod.mk.injEq] at h
    obtain ⟨hdb2, hupd⟩ := h
    subst hdb2
    subst hupd
    refine ⟨rfl, ?_⟩
    simp only [List.map_map]
    congr 1
    funext b
    by_cases hb : (b.id == book_id) = true
    · simp [Function.comp, hb]
    · simp [Function.comp, hb]

def bookW : Book := { id := 1, title := fooRaw, year := 1968, author_id := 7 }

def authorSeven : Author := { id := 7, name := fooRaw }

def catalogBookW : Catalog := { authors := [authorSeven], books := [bookW], accounts := [] }

def bookUpdateNewAuthor : BookUpdatePayload :=
  { title := none, year := some 2000, author_id := some 99 }

def bookWAfter : Book := { id := 1, title := fooRaw, year := 2000, author_id := 7 }

def catalogBookWAfter : Catalog :=
  { authors := [authorSeven], books := [bookWAfter], accounts := [] }

theorem claim_C9_witness :
    bookWAfter.author_id = bookW.author_id
    ∧ catalogBookWAfter.books.map (fun b => b.author_id)
        = catalogBookW.books.map (fun b => if b.id == 1 then bookW.author_id else b.author_id) :=
  claim_C9 catalogBookW 1 bookUpdateNewAuthor catalogBookWAfter bookWAfter bookW rfl (by decide)

/-- C10: a book update whose payload carries year zero behaves exactly like
one with the year field absent, because the router guards the assignment
with Python truthiness and zero is falsy; in particular the stored year is
left unchanged. -/
theorem claim_C10 :
    ∀ (db : Catalog) (book_id : Nat) (titleOpt : Option (List Char)) (authorOpt : Option Nat),
    update_book db book_id { title := titleOpt, year := some 0, author_id := authorOpt }
      = update_book db book_id { title := titleOpt, year := none, author_id := authorOpt } := by
  intro db book_id titleOpt authorOpt
  unfold update_book
  cases hfind : db.books.find? (fun b => b.id == book_id) with
  | none => rfl
  | some book => simp

/-!
Character-level facts about the case table, checked by evaluation: the
lowercase targets are never uppercase sources and vice versa, no table
character is whitespace or removed punctuation, and all table characters
are cased.
-/

theorem caseTable_facts :
    caseTable.all (fun p =>
      (caseTable.find? (fun q => q.1 == p.2)).isNone
      && (caseTable.find? (fun q => q.2 == p.1)).isNone
      && !pyIsSpace p.1 && !pyIsSpace p.2
      && !(p.2 == '?') && !(p.2 == '!')
      && pyIsCased p.1 && pyIsCased p.2) = true := by
  decide

theorem caseTable_fact_of_mem (p : Char × Char) (hp : p ∈ caseTable) :
    caseTable.find? (fun q => q.1 == p.2) = none
    ∧ caseTable.find? (fun q => q.2 == p.1) = none
    ∧ pyIsSpace p.1 = false ∧ pyIsSpace p.2 = false
    ∧ (p.2 == '?') = false ∧ (p.2 == '!') = false
    ∧ pyIsCased p.1 = true ∧ pyIsCased p.2 = true := by
  have h := List.all_eq_true.mp caseTable_facts p hp
  simp only [Bool.and_eq_true, Bool.not_eq_true', Option.isNone_iff_eq_none] at h
  exact ⟨h.1.1.1.1.1.1.1, h.1.1.1.1.1.1.2, h.1.1.1.1.1.2, h.1.1.1.1.2,
         h.1.1.1.2, h.1.1.2, h.1.2, h.2⟩

theorem pyLower_fix (c : Char) (h : caseTable.find? (fun p => p.1 == c) = none) :
    pyLower c = c := by
  unfold pyLower
  rw [h]

theorem pyUpper_fix (c : Char) (h : caseTable.find? (fun p => p.2 == c) = none) :
    pyUpper c = c := by
  unfold pyUpper
  rw [h]

theorem pyLower_pyLower (c : Char) : pyLower (pyLower c) = pyLower c := by
  cases hf : caseTable.find? (fun p => p.1 == c) with
  | none =>
    rw [pyLower_fix c hf]
    exact pyLower_fix c hf
  | some p =>
    have hmem := List.mem_of_find?_eq_some hf
    have hlow : pyLower c = p.2 := by unfold pyLower; rw [hf]
    rw [hlow]
    exact pyLower_fix p.2 (caseTable_fact_of_mem p hmem).1

theorem pyUpper_pyUpper (c : Char) : pyUpper (pyUpper c) = pyUpper c := by
  cases hf : caseTable.find? (fun p => p.2 == c) with
  | none =>
    rw [pyUpper_fix c hf]
    exact pyUpper_fix c hf
  | some p =>
    have hmem := List.mem_of_find?_eq_some hf
    have hup : pyUpper c = p.1 := by unfold pyUpper; rw [hf]
    rw [hup]
    exact pyUpper_fix p.1 (caseTable_fact_of_mem p hmem).2.1

theorem pyIsSpace_pyLower (c : Char) : pyIsSpace (pyLower c) = pyIsSpace c := by
  cases hf : caseTable.find? (fun p => p.1 == c) with
  | none => rw [pyLower_fix c hf]
  | some p =>
    have hmem := List.mem_of_find?_eq_some hf
    have hpc : p.1 = c := by
      have := List.find?_some hf
      simpa using this
    have hlow : pyLower c = p.2 := by unfold pyLower; rw [hf]
    have hfacts := caseTable_fact_of_mem p hmem
    rw [hlow, hfacts.2.2.2.1, ← hpc, hfacts.2.2.1]

theorem pyIsSpace_pyUpper (c : Char) : pyIsSpace (pyUpper c) = pyIsSpace c := by
  cases hf : caseTable.find? (fun p => p.2 == c) with
  | none => rw [pyUpper_fix c hf]
  | some p =>
    have hmem := List.mem_of_find?_eq_some hf
    have hpc : p.2 = c := by
      have := List.find?_some hf
      simpa using this
    have hup : pyUpper c = p.1 := by unfold pyUpper; rw [hf]
    have hfacts := caseTable_fact_of_mem p hmem
    rw [hup, hfacts.2.2.1, ← hpc, hfacts.2.2.2.1]

theorem keepQB_pyLower (c : Char) (h : keepQB c = true) : keepQB (pyLower c) = true := by
  cases hf : caseTable.find? (fun p => p.1 == c) with
  | none => rw [pyLower_fix c hf]; exact h
  | some p =>
    have hmem := List.mem_of_find?_eq_some hf
    have hlow : pyLower c = p.2 := by unfold pyLower; rw [hf]
    have hfacts := caseTable_fact_of_mem p hmem
    rw [hlow]
    unfold keepQB
    rw [hfacts.2.2.2.2.1, hfacts.2.2.2.2.2.1]
    rfl

theorem pyIsCased_pyLower (c : Char) : pyIsCased (pyLower c) = pyIsCased c := by
  cases hf : caseTable.find? (fun p => p.1 == c) with
  | none => rw [pyLower_fix c hf]
  | some p =>
    have hmem := List.mem_of_find?_eq_some hf
    have hpc : p.1 = c := by
      have := List.find?_some hf
      simpa using this
    have hlow : pyLower c = p.2 := by unfold pyLower; rw [hf]
    have hfacts := caseTable_fact_of_mem p hmem
    rw [hlow, hfacts.2.2.2.2.2.2.2, ← hpc, hfacts.2.2.2.2.2.2.1]

theorem pyIsCased_pyUpper (c : Char) : pyIsCased (pyUpper c) = pyIsCased c := by
  cases hf : caseTable.find? (fun p => p.2 == c) with
  | none => rw [pyUpper_fix c hf]
  | some p =>
    have hmem := List.mem_of_find?_eq_some hf
    have hpc : p.2 = c := by
      have := List.find?_some hf
      simpa using this
    have hup : pyUpper c = p.1 := by unfold pyUpper; rw [hf]
    have hfacts := caseTable_fact_of_mem p hmem
    rw [hup, hfacts.2.2.2.2.2.2.1, ← hpc, hfacts.2.2.2.2.2.2.2]

theorem pyLower_of_space (c : Char) (h : pyIsSpace c = true) : pyLower c = c := by
  simp only [pyIsSpace, Bool.or_eq_true, beq_iff_eq] at h
  rcases h with ((((h | h) | h) | h) | h) | h <;> subst h <;> decide

theorem pyUpper_of_space (c : Char) (h : pyIsSpace c = true) : pyUpper c = c := by
  simp only [pyIsSpace, Bool.or_eq_true, beq_iff_eq] at h
  rcases h with ((((h | h) | h) | h) | h) | h <;> subst h <;> decide

/-!
Structural lemmas about whitespace collapsing and stripping.
-/

theorem collapseAux_idem (l : List Char) :
    ∀ b, collapseAux b (collapseAux b l) = collapseAux b l := by
  induction l with
  | nil => intro b; rfl
  | cons c cs ih =>
    intro b
    by_cases hc : pyIsSpace c = true
    · cases b with
      | false =>
        simp only [collapseAux, hc, if_true]
        have hsp : pyIsSpace ' ' = true := by decide
        simp only [collapseAux, hsp, if_true]
        rw [ih true]
      | true =>
        simp only [collapseAux, hc, if_true]
        exact ih true
    · simp only [collapseAux, if_neg hc]
      rw [ih]

theorem mem_collapseAux (b : Bool) (l : List Char) (x : Char) :
    x ∈ collapseAux b l → x = ' ' ∨ x ∈ l := by
  induction l generalizing b with
  | nil => intro hx; simp [collapseAux] at hx
  | cons c cs ih =>
    intro hx
    by_cases hc : pyIsSpace c = true
    · cases b with
      | true =>
        simp only [collapseAux, hc, if_true] at hx
        rcases ih true hx with h | h
        · exact Or.inl h
        · exact Or.inr (List.mem_cons_of_mem c h)
      | false =>
        simp only [collapseAux, hc, if_true] at hx
        rcases List.mem_cons.mp hx with h | h
        · exact Or.inl h
        · rcases ih true h with h2 | h2
          · exact Or.inl h2
          · exact Or.inr (List.mem_cons_of_mem c h2)
    · simp only [collapseAux, if_neg hc] at hx
      rcases List.mem_cons.mp hx with h | h
      · exact Or.inr (h ▸ List.mem_cons_self c cs)
      · rcases ih false h with h2 | h2
        · exact Or.inl h2
        · exact Or.inr (List.mem_cons_of_mem c h2)

theorem collapseAux_cons_not_space (b : Bool) (c : Char) (cs : List Char)
    (hc : pyIsSpace c = false) :
    collapseAux b (c :: cs) = c :: collapseAux false cs := by
  simp [collapseAux, hc]

theorem collapseAux_cons_space_true (c : Char) (cs : List Char)
    (hc : pyIsSpace c = true) :
    collapseAux true (c :: cs) = collapseAux true cs := by
  simp [collapseAux, hc]

theorem collapseAux_cons_space_false (c : Char) (cs : List Char)
    (hc : pyIsSpace c = true) :
    collapseAux false (c :: cs) = ' ' :: collapseAux true cs := by
  simp [collapseAux, hc]

theorem collapseAux_eq_nil (b : Bool) (l : List Char) :
    collapseAux b l = [] → ∀ x ∈ l, pyIsSpace x = true := by
  induction l generalizing b with
  | nil => intro _ x hx; simp at hx
  | cons c cs ih =>
    intro h x hx
    by_cases hc : pyIsSpace c = true
    · cases b with
      | true =>
        rw [collapseAux_cons_space_true c cs hc] at h
        rcases List.mem_cons.mp hx with h2 | h2
        · exact h2 ▸ hc
        · exact ih true h x h2
      | false =>
        rw [collapseAux_cons_space_false c cs hc] at h
        exact absurd h (List.cons_ne_nil _ _)
    · have hc2 : pyIsSpace c = false := by simpa using hc
      rw [collapseAux_cons_not_space b c cs hc2] at h
      exact absurd h (List.cons_ne_nil _ _)

theorem mem_of_getLast?_some : ∀ (l : List Char) (a : Char), l.getLast? = some a → a ∈ l := by
  intro l
  induction l with
  | nil => intro a h; simp at h
  | cons c cs ih =>
    intro a h
    cases cs with
    | nil =>
      simp only [List.getLast?_singleton, Option.some.injEq] at h
      simp [h]
    | cons d ds =>
      rw [List.getLast?_cons_cons] at h
      exact List.mem_cons_of_mem c (ih a h)

theorem getLast?_cons_is_some (c : Char) (cs : List Char) :
    ∃ y, (c :: cs).getLast? = some y := by
  induction cs generalizing c with
  | nil => exact ⟨c, by simp⟩
  | cons d ds ih =>
    rw [List.getLast?_cons_cons]
    exact ih d

/-- Absence of whitespace at both ends of a character list. -/
def noEdgeSpace (l : List Char) : Prop :=
  (∀ x, l.head? = some x → pyIsSpace x = false)
  ∧ (∀ x, l.getLast? = some x → pyIsSpace x = false)

theorem collapseAux_getLast (l : List Char) :
    ∀ b, (∀ x, l.getLast? = some x → pyIsSpace x = false) →
    ∀ x, (collapseAux b l).getLast? = some x → pyIsSpace x = false := by
  induction l with
  | nil => intro b _ x hx; simp [collapseAux] at hx
  | cons c cs ih =>
    intro b hl x hx
    cases cs with
    | nil =>
      have hc : pyIsSpace c = false := hl c (by simp)
      rw [collapseAux_cons_not_space b c [] hc] at hx
      simp only [collapseAux, List.getLast?_singleton, Option.some.injEq] at hx
      exact hx ▸ hc
    | cons d ds =>
      have hl' : ∀ y, (d :: ds).getLast? = some y → pyIsSpace y = false := by
        intro y hy
        exact hl y (by rwa [List.getLast?_cons_cons])
      by_cases hc : pyIsSpace c = true
      · cases b with
        | true =>
          rw [collapseAux_cons_space_true c (d :: ds) hc] at hx
          exact ih true hl' x hx
        | false =>
          rw [collapseAux_cons_space_false c (d :: ds) hc] at hx
          cases hX : collapseAux true (d :: ds) with
          | nil =>
            exfalso
            obtain ⟨y, hy⟩ := getLast?_cons_is_some d ds
            have hyw := collapseAux_eq_nil true (d :: ds) hX y (mem_of_getLast?_some _ y hy)
            rw [hl' y hy] at hyw
            exact Bool.false_ne_true hyw
          | cons e es =>
            rw [hX, List.getLast?_cons_cons] at hx
            exact ih true hl' x (hX ▸ hx)
      · have hc' : pyIsSpace c = false := by simpa using hc
        rw [collapseAux_cons_not_space b c (d :: ds) hc'] at hx
        cases hX : collapseAux false (d :: ds) with
        | nil =>
          rw [hX] at hx
          simp only [List.getLast?_singleton, Option.some.injEq] at hx
          exact hx ▸ hc'
        | cons e es =>
          rw [hX, List.getLast?_cons_cons] at hx
          exact ih false hl' x (hX ▸ hx)

theorem collapseWS_noEdge (l : List Char) (h : noEdgeSpace l) :
    noEdgeSpace (collapseWS l) := by
  constructor
  · intro x hx
    cases l with
    | nil => simp [collapseWS, collapseAux] at hx
    | cons c cs =>
      have hc : pyIsSpace c = false := h.1 c rfl
      rw [collapseWS, collapseAux_cons_not_space false c cs hc] at hx
      simp only [List.head?_cons, Option.some.injEq] at hx
      exact hx ▸ hc
  · exact collapseAux_getLast l false h.2

theorem head_dropWhile_not (p : Char → Bool) (l : List Char) :
    ∀ x, (l.dropWhile p).head? = some x → p x = false := by
  induction l with
  | nil => intro x h; simp [List.dropWhile] at h
  | cons c cs ih =>
    intro x h
    rw [List.dropWhile_cons] at h
    split at h
    · exact ih x h
    · rename_i hpc
      simp only [List.head?_cons, Option.some.injEq] at h
      subst h
      simpa using hpc

theorem dropWhile_eq_self_of_head (p : Char → Bool) (l : List Char)
    (h : ∀ x, l.head? = some x → p x = false) : l.dropWhile p = l := by
  cases l with
  | nil => rfl
  | cons c cs =>
    rw [List.dropWhile_cons]
    simp [h c rfl]

theorem getLast?_dropWhile (p : Char → Bool) (l : List Char) :
    ∀ x, (l.dropWhile p).getLast? = some x → l.getLast? = some x := by
  obtain ⟨t, ht⟩ := List.dropWhile_suffix (l := l) p
  intro x hx
  rw [← ht, List.getLast?_append, hx]
  rfl

theorem pyStrip_noEdge (l : List Char) : noEdgeSpace (pyStrip l) := by
  unfold pyStrip
  constructor
  · intro x hx
    rw [List.head?_reverse] at hx
    have h2 := getLast?_dropWhile pyIsSpace ((l.dropWhile pyIsSpace).reverse) x hx
    rw [List.getLast?_reverse] at h2
    exact head_dropWhile_not pyIsSpace l x h2
  · intro x hx
    rw [List.getLast?_reverse] at hx
    exact head_dropWhile_not pyIsSpace _ x hx

theorem pyStrip_eq_self (l : List Char) (h : noEdgeSpace l) : pyStrip l = l := by
  unfold pyStrip
  rw [dropWhile_eq_self_of_head pyIsSpace l h.1]
  rw [dropWhile_eq_self_of_head pyIsSpace l.reverse (by
    intro x hx
    rw [List.head?_reverse] at hx
    exact h.2 x hx)]
  exact List.reverse_reverse l

theorem mem_pyStrip (l : List Char) (x : Char) (hx : x ∈ pyStrip l) : x ∈ l := by
  unfold pyStrip at hx
  rw [List.mem_reverse] at hx
  have h1 := (List.dropWhile_suffix pyIsSpace).subset hx
  rw [List.mem_reverse] at h1
  exact (List.dropWhile_suffix pyIsSpace).subset h1

theorem map_eq_self_of_fix (l : List Char) (f : Char → Char)
    (h : ∀ x ∈ l, f x = x) : l.map f = l := by
  induction l with
  | nil => rfl
  | cons c cs ih =>
    simp only [List.map_cons]
    rw [h c (List.mem_cons_self c cs), ih (fun x hx => h x (List.mem_cons_of_mem c hx))]

theorem filter_eq_self_of_all (l : List Char) (p : Char → Bool)
    (h : ∀ x ∈ l, p x = true) : l.filter p = l := by
  induction l with
  | nil => rfl
  | cons c cs ih =>
    rw [List.filter_cons, if_pos (h c (List.mem_cons_self c cs)),
        ih (fun x hx => h x (List.mem_cons_of_mem c hx))]

/-- Recognizer for lists in collapsed whitespace form: every whitespace
character is a single space not preceded by whitespace (the flag records
whether the previous character was whitespace). -/
def wsNormalB : Bool → List Char → Bool
  | _, [] => true
  | b, c :: cs =>
    if pyIsSpace c then !b && (c == ' ') && wsNormalB true cs
    else wsNormalB false cs

theorem wsNormalB_collapseAux (l : List Char) :
    ∀ b, wsNormalB b (collapseAux b l) = true := by
  induction l with
  | nil => intro b; rfl
  | cons c cs ih =>
    intro b
    by_cases hc : pyIsSpace c = true
    · cases b with
      | true =>
        rw [collapseAux_cons_space_true c cs hc]
        exact ih true
      | false =>
        rw [collapseAux_cons_space_false c cs hc]
        have hsp : pyIsSpace ' ' = true := by decide
        simp only [wsNormalB, hsp, if_true, Bool.not_false, Bool.true_and, beq_self_eq_true]
        exact ih true
    · have hc2 : pyIsSpace c = false := by simpa using hc
      rw [collapseAux_cons_not_space b c cs hc2]
      simp only [wsNormalB, hc2, Bool.false_eq_true, if_false]
      exact ih false

theorem collapseAux_of_wsNormalB (l : List Char) :
    ∀ b, wsNormalB b l = true → collapseAux b l = l := by
  induction l with
  | nil => intro b _; rfl
  | cons c cs ih =>
    intro b h
    by_cases hc : pyIsSpace c = true
    · simp only [wsNormalB, hc, if_true, Bool.and_eq_true, Bool.not_eq_true',
        beq_iff_eq] at h
      obtain ⟨⟨hb, hsp⟩, hrest⟩ := h
      subst hb
      rw [collapseAux_cons_space_false c cs hc, hsp]
      rw [ih true hrest]
    · have hc2 : pyIsSpace c = false := by simpa using hc
      simp only [wsNormalB, hc2, Bool.false_eq_true, if_false] at h
      rw [collapseAux_cons_not_space b c cs hc2, ih false h]

theorem pyTitleAux_idem (l : List Char) :
    ∀ b, pyTitleAux b (pyTitleAux b l) = pyTitleAux b l := by
  induction l with
  | nil => intro b; rfl
  | cons c cs ih =>
    intro b
    cases b with
    | true =>
      simp only [pyTitleAux, if_true]
      rw [pyLower_pyLower, pyIsCased_pyLower]
      rw [ih (pyIsCased c)]
    | false =>
      simp only [pyTitleAux, Bool.false_eq_true, if_false]
      rw [pyUpper_pyUpper, pyIsCased_pyUpper]
      rw [ih (pyIsCased c)]

theorem pyTitleAux_space_proj (l : List Char) :
    ∀ b, (pyTitleAux b l).map pyIsSpace = l.map pyIsSpace := by
  induction l with
  | nil => intro b; rfl
  | cons c cs ih =>
    intro b
    cases b with
    | true =>
      simp only [pyTitleAux, if_true, List.map_cons]
      rw [pyIsSpace_pyLower, ih (pyIsCased c)]
    | false =>
      simp only [pyTitleAux, Bool.false_eq_true, if_false, List.map_cons]
      rw [pyIsSpace_pyUpper, ih (pyIsCased c)]

theorem pyTitleAux_noEdge (l : List Char) (b : Bool) (h : noEdgeSpace l) :
    noEdgeSpace (pyTitleAux b l) := by
  have proj := pyTitleAux_space_proj l b
  constructor
  · intro x hx
    have h1 : ((pyTitleAux b l).map pyIsSpace).head? = (l.map pyIsSpace).head? := by
      rw [proj]
    rw [List.head?_map, List.head?_map, hx] at h1
    cases hy : l.head? with
    | none => rw [hy] at h1; simp at h1
    | some y =>
      rw [hy] at h1
      simp at h1
      rw [h1]
      exact h.1 y hy
  · intro x hx
    have h1 : ((pyTitleAux b l).map pyIsSpace).getLast? = (l.map pyIsSpace).getLast? := by
      rw [proj]
    rw [List.getLast?_map, List.getLast?_map, hx] at h1
    cases hy : l.getLast? with
    | none => rw [hy] at h1; simp at h1
    | some y =>
      rw [hy] at h1
      simp at h1
      rw [h1]
      exact h.2 y hy

theorem pyTitleAux_wsNormal (l : List Char) :
    ∀ b b2, wsNormalB b2 (pyTitleAux b l) = wsNormalB b2 l := by
  induction l with
  | nil => intro b b2; rfl
  | cons c cs ih =>
    intro b b2
    by_cases hc : pyIsSpace c = true
    · have hfix : (if b = true then pyLower c else pyUpper c) = c := by
        cases b with
        | true => simp only [if_true]; exact pyLower_of_space c hc
        | false => simp only [Bool.false_eq_true, if_false]; exact pyUpper_of_space c hc
      simp only [pyTitleAux]
      rw [hfix]
      simp only [wsNormalB, hc, if_true]
      rw [ih (pyIsCased c) true]
    · have hc2 : pyIsSpace c = false := by simpa using hc
      have hm : pyIsSpace (if b = true then pyLower c else pyUpper c) = false := by
        cases b with
        | true => simp only [if_true]; rw [pyIsSpace_pyLower]; exact hc2
        | false => simp only [Bool.false_eq_true, if_false]; rw [pyIsSpace_pyUpper]; exact hc2
      simp only [pyTitleAux, wsNormalB, hm, hc2, Bool.false_eq_true, if_false]
      rw [ih (pyIsCased c) false]

theorem sanitize_text_out_idem (t : List Char) :
    sanitize_text_out (sanitize_text_out t) = sanitize_text_out t := by
  unfold sanitize_text_out
  have hne : noEdgeSpace (collapseWS (pyStrip t)) :=
    collapseWS_noEdge (pyStrip t) (pyStrip_noEdge t)
  rw [pyStrip_eq_self _ (pyTitleAux_noEdge _ false hne)]
  have h2 : collapseWS (pyTitleAux false (collapseWS (pyStrip t)))
      = pyTitleAux false (collapseWS (pyStrip t)) := by
    apply collapseAux_of_wsNormalB
    rw [pyTitleAux_wsNormal]
    exact wsNormalB_collapseAux (pyStrip t) false
  rw [h2]
  exact pyTitleAux_idem _ false

theorem sanitize_text_in_idem_of_keep (t : List Char)
    (hk : ∀ x ∈ t, keepQB x = true) :
    sanitize_text_in (sanitize_text_in t) = sanitize_text_in t := by
  unfold sanitize_text_in
  have hkv : ∀ x ∈ pyStrip (t.map pyLower), keepQB x = true := by
    intro x hx
    obtain ⟨y, hy, hyx⟩ := List.mem_map.mp (mem_pyStrip _ x hx)
    rw [← hyx]
    exact keepQB_pyLower y (hk y hy)
  rw [filter_eq_self_of_all _ keepQB hkv]
  have hufix : (collapseWS (pyStrip (t.map pyLower))).map pyLower
      = collapseWS (pyStrip (t.map pyLower)) := by
    apply map_eq_self_of_fix
    intro x hx
    rcases mem_collapseAux false _ x hx with h | h
    · rw [h]; decide
    · obtain ⟨y, _, hyx⟩ := List.mem_map.mp (mem_pyStrip _ x h)
      rw [← hyx]
      exact pyLower_pyLower y
  rw [hufix]
  have hnoe : noEdgeSpace (collapseWS (pyStrip (t.map pyLower))) :=
    collapseWS_noEdge _ (pyStrip_noEdge _)
  rw [pyStrip_eq_self _ hnoe]
  have hkeep2 : ∀ x ∈ collapseWS (pyStrip (t.map pyLower)), keepQB x = true := by
    intro x hx
    rcases mem_collapseAux false _ x hx with h | h
    · rw [h]; decide
    · exact hkv x h
  rw [filter_eq_self_of_all _ keepQB hkeep2]
  exact collapseAux_idem _ false

/-- C2 amended: normalize_for_display is idempotent for every text, and
normalize_for_storage is idempotent for every text free of question and
exclamation marks. Full idempotence of the storage form fails, because
stripping runs before the punctuation removal, which can expose edge
whitespace; the counterexample theorem exhibits this. -/
theorem claim_C2 :
    (∀ t : List Char, '?' ∉ t → '!' ∉ t →
      sanitize_text_in (sanitize_text_in t) = sanitize_text_in t)
    ∧ (∀ t : List Char, sanitize_text_out (sanitize_text_out t) = sanitize_text_out t) := by
  constructor
  · intro t hq hb
    apply sanitize_text_in_idem_of_keep
    intro x hx
    have h1 : x ≠ '?' := fun he => hq (he ▸ hx)
    have h2 : x ≠ '!' := fun he => hb (he ▸ hx)
    simp [keepQB, h1, h2]
  · exact fun t => sanitize_text_out_idem t

theorem claim_C2_witness :
    sanitize_text_in (sanitize_text_in machadoRaw) = sanitize_text_in machadoRaw
    ∧ sanitize_text_out (sanitize_text_out machadoRaw) = sanitize_text_out machadoRaw :=
  ⟨claim_C2.1 machadoRaw (by decide) (by decide), claim_C2.2 machadoRaw⟩
